import Mathlib

/- Verification of the resilient structured-extraction client of this
   repository: the function `get_structured_data_with_gemini` in
   `gemini_utils.py`.  The function is shallowly embedded below: Python
   strings are lists of characters, the remote model and the Python
   standard-library JSON decoder are oracle parameters of the run, and
   the bounded retry loop is a fuel-style recursion on the remaining
   retry budget.  The run records, besides the returned report, the
   number of `model.generate_content` calls, the list of back-off
   sleeps (in seconds) and the return path taken, so that statements
   about attempt counts, sleeps and reachability can be made. -/

deriving instance DecidableEq for Except

namespace GeminiUtils

/-- Python strings, modelled as lists of characters. -/
abbrev PStr := List Char

/-- The character list of a string literal. -/
def chars (s : String) : PStr := s.data

/-- Python `str.strip()`: drop leading and trailing whitespace. -/
def pyStrip (s : PStr) : PStr :=
  ((s.dropWhile Char.isWhitespace).reverse.dropWhile Char.isWhitespace).reverse

/-- Python `str.lower()` (ASCII case folding). -/
def pyLower (s : PStr) : PStr := s.map Char.toLower

/-- Python `str.upper()` (ASCII case folding). -/
def pyUpper (s : PStr) : PStr := s.map Char.toUpper

/-- Python `pat in s.lower()` for a literal pattern `pat`. -/
def containsLow (s : PStr) (pat : String) : Prop := chars pat <:+: pyLower s

/-- Python `pat in s.upper()` for a literal pattern `pat`. -/
def containsUp (s : PStr) (pat : String) : Prop := chars pat <:+: pyUpper s

instance (s : PStr) (pat : String) : Decidable (containsLow s pat) := by
  unfold containsLow; exact List.decidableInfix _ _

instance (s : PStr) (pat : String) : Decidable (containsUp s pat) := by
  unfold containsUp; exact List.decidableInfix _ _

/-- Decimal rendering of a natural number, as interpolated by f-strings. -/
def natChars (n : Nat) : PStr := (Nat.repr n).data

/-- Decimal rendering of an integer, as interpolated by f-strings. -/
def intChars (i : Int) : PStr := (Int.repr i).data

/-- Generic JSON values, the codomain of the `json.loads` oracle.
    JSON numbers are carried as exact rationals; the client never
    computes with them, they only pass through field coercion. -/
inductive JValue where
  | null
  | bool (b : Bool)
  | num (q : Rat)
  | str (s : PStr)
  | arr (xs : List JValue)
  | obj (fields : List (PStr × JValue))

/-- Header record of the report (source: the pydantic model referenced
    by `gemini_utils.py`; `models.py` is not among the provided source
    files, so the field inventory follows the JSON schema embedded in
    the prompt of `get_structured_data_with_gemini`). -/
structure DARHeader where
  audit_group_number : Option Int := none
  gstin : Option PStr := none
  trade_name : Option PStr := none
  category : Option PStr := none
  total_amount_detected_overall_rs : Option Rat := none
  total_amount_recovered_overall_rs : Option Rat := none
deriving DecidableEq

/-- One audit para (line item) of the report, fields as in the prompt
    schema of `get_structured_data_with_gemini`. -/
structure AuditPara where
  audit_para_number : Option Int := none
  audit_para_heading : Option PStr := none
  revenue_involved_lakhs_rs : Option Rat := none
  revenue_recovered_lakhs_rs : Option Rat := none
  status_of_para : Option PStr := none
deriving DecidableEq

/-- The result record returned by the client.  `models.py` is not in
    the provided sources; the record shape follows the prompt schema
    and the construction sites `ParsedDARReport(parsing_errors=...)`,
    which leave `header` empty and `audit_paras` empty. -/
structure ParsedDARReport where
  header : DARHeader := {}
  audit_paras : List AuditPara := []
  parsing_errors : Option PStr := none
deriving DecidableEq

/-- A report whose only populated field is the diagnostic, mirroring
    `ParsedDARReport(parsing_errors=msg)`. -/
def mkErr (m : PStr) : ParsedDARReport := { parsing_errors := some m }

/-- First binding of a key in a JSON object (Python dicts built by
    `json.loads` have unique keys, so first = only). -/
def lookupKey (fs : List (PStr × JValue)) (k : PStr) : Option JValue :=
  match fs with
  | [] => none
  | (k2, v) :: rest => if k2 = k then some v else lookupKey rest k

/-- `d[k] = v` on a JSON object: replace the binding in place, or
    append it (Python dicts keep insertion order). -/
def setKey (fs : List (PStr × JValue)) (k : PStr) (v : JValue) :
    List (PStr × JValue) :=
  match fs with
  | [] => [(k, v)]
  | (k2, v2) :: rest =>
      if k2 = k then (k2, v) :: rest else (k2, v2) :: setKey rest k v

/-- Whether a JSON value is the given string (Python `==` between a
    string and an arbitrary JSON element). -/
def jvalIsStr (v : JValue) (k : PStr) : Bool :=
  match v with
  | .str s => s = k
  | _ => false

/-- Modelled from the spec: field coercion of the pydantic model in
    the absent `models.py`.  An optional string field accepts JSON
    null or a JSON string and rejects anything else. -/
def coerceOptStr (v : JValue) : Except PStr (Option PStr) :=
  match v with
  | .null => .ok none
  | .str s => .ok (some s)
  | _ => .error (chars "value is not a valid string")

/-- Modelled from the spec: an optional integer field accepts JSON
    null or an integral JSON number. -/
def coerceOptInt (v : JValue) : Except PStr (Option Int) :=
  match v with
  | .null => .ok none
  | .num q => if q.den = 1 then .ok (some q.num)
              else .error (chars "value is not a valid integer")
  | _ => .error (chars "value is not a valid integer")

/-- Modelled from the spec: an optional numeric field accepts JSON
    null or any JSON number. -/
def coerceOptNum (v : JValue) : Except PStr (Option Rat) :=
  match v with
  | .null => .ok none
  | .num q => .ok (some q)
  | _ => .error (chars "value is not a valid number")

/-- Coerce one optional field of a JSON object: an absent field keeps
    its default `none`; unknown extra fields are ignored by the
    callers, which only look up recognized names. -/
def optField (fs : List (PStr × JValue)) (k : String)
    (co : JValue → Except PStr (Option α)) : Except PStr (Option α) :=
  match lookupKey fs (chars k) with
  | none => .ok none
  | some v => co v

/-- Modelled from the spec: construction of the header record from a
    JSON value (`models.py` is absent).  Every field may be absent;
    recognized fields are coerced, unknown fields ignored; a JSON
    null stands for an empty header; any other non-mapping value is a
    validation error. -/
def mkHeader (v : JValue) : Except PStr DARHeader :=
  match v with
  | .null => .ok {}
  | .obj fs => do
      let agn ← optField fs "audit_group_number" coerceOptInt
      let g ← optField fs "gstin" coerceOptStr
      let t ← optField fs "trade_name" coerceOptStr
      let c ← optField fs "category" coerceOptStr
      let d ← optField fs "total_amount_detected_overall_rs" coerceOptNum
      let r ← optField fs "total_amount_recovered_overall_rs" coerceOptNum
      .ok { audit_group_number := agn, gstin := g, trade_name := t,
            category := c, total_amount_detected_overall_rs := d,
            total_amount_recovered_overall_rs := r }
  | _ => .error (chars "header is not a valid mapping")

/-- Modelled from the spec: construction of one audit para record. -/
def mkPara (v : JValue) : Except PStr AuditPara :=
  match v with
  | .obj fs => do
      let n ← optField fs "audit_para_number" coerceOptInt
      let h ← optField fs "audit_para_heading" coerceOptStr
      let ri ← optField fs "revenue_involved_lakhs_rs" coerceOptNum
      let rr ← optField fs "revenue_recovered_lakhs_rs" coerceOptNum
      let st ← optField fs "status_of_para" coerceOptStr
      .ok { audit_para_number := n, audit_para_heading := h,
            revenue_involved_lakhs_rs := ri,
            revenue_recovered_lakhs_rs := rr, status_of_para := st }
  | _ => .error (chars "audit para is not a valid mapping")

/-- Coercion of the top-level `header` key (absent key keeps the
    default empty header). -/
def reportHeader (fs : List (PStr × JValue)) : Except PStr DARHeader :=
  match lookupKey fs (chars "header") with
  | none => .ok {}
  | some hv => mkHeader hv

/-- Coercion of the top-level `audit_paras` key (absent key keeps the
    default empty list). -/
def reportParas (fs : List (PStr × JValue)) :
    Except PStr (List AuditPara) :=
  match lookupKey fs (chars "audit_paras") with
  | none => .ok []
  | some (.arr xs) => xs.mapM mkPara
  | some _ => .error (chars "audit_paras is not a valid list")

/-- Coercion of the top-level `parsing_errors` key. -/
def reportPe (fs : List (PStr × JValue)) : Except PStr (Option PStr) :=
  match lookupKey fs (chars "parsing_errors") with
  | none => .ok none
  | some pv => coerceOptStr pv

/-- Modelled from the spec: `ParsedDARReport(**json_data)` of the
    absent `models.py` — mapping of the recognized top-level keys into
    the typed record, ignoring unknown keys; any failure (including a
    non-mapping argument, which makes the `**` unpacking itself raise)
    is reported as the error string of the raised exception. -/
def mkReport (v : JValue) : Except PStr ParsedDARReport :=
  match v with
  | .obj fs =>
      match reportHeader fs with
      | .error e => .error e
      | .ok hd =>
          match reportParas fs with
          | .error e => .error e
          | .ok ps =>
              match reportPe fs with
              | .error e => .error e
              | .ok pe =>
                  .ok { header := hd, audit_paras := ps,
                        parsing_errors := pe }
  | _ => .error (chars "argument after unpacking must be a mapping")

/-- Outcome of one `model.generate_content` call, the oracle for the
    remote model: a falsy response object, a response carrying a text
    payload (possibly empty), or a raised exception carried as its
    Python type name and its `str(e)` rendering. -/
inductive GenOutcome where
  | noResponse
  | response (text : PStr)
  | raise (ty : PStr) (msg : PStr)
deriving DecidableEq

/-- Outcome of the one-off Gemini initialization (import, configure,
    model construction, lines 41-57 of `gemini_utils.py`). -/
inductive InitOutcome where
  | ok
  | importFail (msg : PStr)
  | initFail (msg : PStr)
deriving DecidableEq

/-- Oracles for everything outside the repository: the remote model
    per attempt number, the library initialization, and the Python
    standard-library `json.loads` (error = `str` of the decode
    exception). -/
structure Env where
  initStage : InitOutcome
  gen : Nat → GenOutcome
  jsonLoads : PStr → Except PStr JValue

/-- Failure kinds of one attempt, as distinguished by the retry loop. -/
inductive FailKind where
  | noResponse
  | emptyText
  | emptyClean
  | invalidJson
  | validation
  | quota
  | resource
  | generic
deriving DecidableEq

/-- Return paths of the whole call. -/
inductive ExitTag where
  | preKey
  | preSentinel
  | preInit
  | preShort
  | success
  | billing
  | auth
  | exhausted (k : FailKind)
  | fallthrough
deriving DecidableEq

/-- Result of one attempt of the loop body: a constructed report
    (line 267), an immediately terminal error report (billing/auth),
    or a retryable failure carrying the diagnostic that would be
    returned on exhaustion and the `str` of the recorded
    `last_exception`. -/
inductive StepOutcome where
  | success (r : ParsedDARReport)
  | terminal (r : ParsedDARReport) (tag : ExitTag)
  | fail (k : FailKind) (emsg : PStr) (excStr : PStr)
deriving DecidableEq

/-- Message of line 152 of `gemini_utils.py`. -/
def noRespMsg (a : Nat) : PStr :=
  chars "Gemini returned no response on attempt " ++ natChars a ++
    chars ". This might be due to free tier rate limits."

/-- Message of line 164. -/
def emptyTextMsg (a : Nat) : PStr :=
  chars "Gemini returned empty response.text on attempt " ++ natChars a ++
    chars ". This might be due to free tier rate limits."

/-- Message of line 205. -/
def emptyCleanMsg (a : Nat) : PStr :=
  chars "Gemini response was empty after cleaning on attempt " ++ natChars a ++
    chars "."

/-- Message of line 227. -/
def invalidJsonMsg (a : Nat) (js : PStr) : PStr :=
  chars "Invalid JSON from Gemini (Attempt " ++ natChars a ++
    (chars "): " ++ js.take 200 ++ chars "...")

/-- Message of line 241 (lenient key fallback). -/
def missingKeysMsg (a : Nat) : PStr :=
  chars "Gemini response missing required keys (Attempt " ++ natChars a ++
    chars "). Using fallback structure."

/-- Message of line 270. -/
def validationMsg (a : Nat) (ps : PStr) : PStr :=
  chars "Data validation error (Attempt " ++ natChars a ++
    (chars "): " ++ ps.take 200 ++ chars "...")

/-- Message of line 287. -/
def quotaMsg (a : Nat) : PStr :=
  chars "Free tier quota/rate limit exceeded (Attempt " ++ natChars a ++
    chars "). Please wait and try again."

/-- Message of line 299. -/
def billingMsg : PStr :=
  chars "Billing issue detected. For free tier, ensure you have a valid Google account and the API key is generated correctly."

/-- Message of line 304. -/
def authMsg : PStr :=
  chars "Authentication error. Please check your API key is valid and generated from Google AI Studio."

/-- Message of line 309. -/
def resourceMsg (a : Nat) : PStr :=
  chars "Resource exhausted (Attempt " ++ natChars a ++
    chars "). Free tier limits reached. Please wait and try again."

/-- Message of line 282. -/
def genericMsg (a : Nat) (ty s : PStr) : PStr :=
  chars "API Error (Attempt " ++ natChars a ++
    (chars "): " ++ ty ++ chars " - " ++ s.take 200 ++ chars "...")

/-- Python `str(last_exception)` where `None` renders as "None". -/
def lastExcChars (last : Option PStr) : PStr :=
  match last with
  | none => chars "None"
  | some s => s

/-- Message of line 327 (post-loop fallthrough). -/
def fallthroughMsg (M : Int) (last : Option PStr) : PStr :=
  chars "Gemini API failed after " ++ intChars (M + 1) ++
    (chars " attempts. Last error: " ++ (lastExcChars last).take 200 ++
      chars "... Try again in a few minutes (free tier rate limits).")

/-- The markdown-fence removal of lines 184-195: strip one leading
    fence marker, trying the four tokens in the order of the code. -/
def stripFencePre (s : PStr) : PStr :=
  if chars "```json" <+: s then s.drop 7
  else if chars "```" <+: s then s.drop 3
  else if chars "`json" <+: s then s.drop 5
  else if chars "`" <+: s then s.drop 1
  else s

/-- The trailing-fence removal of lines 197-202. -/
def stripFenceSuf (s : PStr) : PStr :=
  if chars "```" <:+ s then s.take (s.length - 3)
  else if chars "`" <:+ s then s.take (s.length - 1)
  else s

/-- Response sanitization, lines 178-202: `response.text.strip()`
    followed by removal of one leading and one trailing fence. -/
def sanitize (t : PStr) : PStr := stripFenceSuf (stripFencePre (pyStrip t))

/-- Python `key in json_data` (lines 240, 246, 249): key membership on
    a dict, element equality on a list, substring test on a string,
    and a raised `TypeError` on any other JSON value.  Errors carry
    the exception type name and `str(e)`. -/
def pyInJ (v : JValue) (k : String) : Except (PStr × PStr) Bool :=
  match v with
  | .obj fs => .ok (lookupKey fs (chars k)).isSome
  | .arr xs => .ok (xs.any (fun x => jvalIsStr x (chars k)))
  | .str s => .ok (decide (chars k <:+: s))
  | _ => .error (chars "TypeError", chars "argument of type is not iterable")

/-- Python `json_data[k] = v` (lines 247, 250, 252): item assignment,
    raising `TypeError` on anything but a dict. -/
def pySetJ (v : JValue) (k : String) (val : JValue) :
    Except (PStr × PStr) JValue :=
  match v with
  | .obj fs => .ok (.obj (setKey fs (chars k) val))
  | _ => .error (chars "TypeError",
           chars "object does not support item assignment")

/-- The required-keys check and lenient fallback of lines 240-252:
    when `header` or `audit_paras` is missing, synthesize the missing
    key(s) and record the fallback note under `parsing_errors`. -/
def fixupKeys (jd : JValue) (a : Nat) : Except (PStr × PStr) JValue :=
  match pyInJ jd "header" with
  | .error e => .error e
  | .ok hIn =>
      match pyInJ jd "audit_paras" with
      | .error e => .error e
      | .ok pIn =>
          if hIn && pIn then .ok jd
          else
            match (if hIn then .ok jd else pySetJ jd "header" (.obj [])) with
            | .error e => .error e
            | .ok jd1 =>
                match (if pIn then .ok jd1
                       else pySetJ jd1 "audit_paras" (.arr [])) with
                | .error e => .error e
                | .ok jd2 =>
                    pySetJ jd2 "parsing_errors" (.str (missingKeysMsg a))

/-- The exception classifier of lines 281-324 (the `except` arm of the
    attempt body), dispatching on case-insensitive substrings of
    `str(e)`. -/
def handleExc (ty s : PStr) (a : Nat) : StepOutcome :=
  if containsLow s "quota" ∨ containsLow s "rate" then
    .fail .quota (quotaMsg a) s
  else if containsLow s "billing" then
    .terminal (mkErr billingMsg) .billing
  else if containsUp s "API_KEY" ∨ containsLow s "auth" then
    .terminal (mkErr authMsg) .auth
  else if containsUp s "RESOURCE_EXHAUSTED" then
    .fail .resource (resourceMsg a) s
  else
    .fail .generic (genericMsg a ty s) s

/-- One iteration of the retry loop (lines 123-324) at attempt number
    `a` (the already-incremented counter). -/
def attemptStep (env : Env) (a : Nat) : StepOutcome :=
  match env.gen a with
  | .noResponse => .fail .noResponse (noRespMsg a) (noRespMsg a)
  | .raise ty s => handleExc ty s a
  | .response t =>
      if t = [] then .fail .emptyText (emptyTextMsg a) (emptyTextMsg a)
      else
        if sanitize t = [] then
          .fail .emptyClean (emptyCleanMsg a) (emptyCleanMsg a)
        else
          match env.jsonLoads (sanitize t) with
          | .error js => .fail .invalidJson (invalidJsonMsg a js) js
          | .ok jd =>
              match fixupKeys jd a with
              | .error exc => handleExc exc.1 exc.2 a
              | .ok jd2 =>
                  match mkReport jd2 with
                  | .ok r => .success r
                  | .error ps => .fail .validation (validationMsg a ps) ps

/-- The kind-specific back-off of the retry loop: lines 158, 170
    (`5 + attempt*2`), 211 (`5 + attempt`), 233, 276 (`5 + attempt*2`),
    293 (`30`), 314 (`60`), 322 (`5 + attempt*2`). -/
def waitFor (k : FailKind) (a : Nat) : Nat :=
  match k with
  | .emptyClean => 5 + a
  | .quota => 30
  | .resource => 60
  | _ => 5 + a * 2

/-- The observable trace of one call: the returned report, the number
    of `model.generate_content` calls, the back-off sleeps performed
    in order, and the return path taken. -/
structure RunResult where
  report : ParsedDARReport
  calls : Nat
  sleeps : List Nat
  tag : ExitTag
deriving DecidableEq

/-- The bookkeeping of one sleep-and-retry transition: prepend the
    back-off for failure kind `k` at attempt `a` and count the call. -/
def consStep (k : FailKind) (a : Nat) (rest : RunResult) : RunResult :=
  ⟨rest.report, rest.calls + 1, waitFor k a :: rest.sleeps, rest.tag⟩

/-- The retry loop `while attempt <= max_retries` (lines 119-329),
    with the pre-increment value of the Python `attempt` counter as
    `pre` and the number of remaining loop-guard successes as the
    structural recursion budget `b = (max_retries + 1 - pre).toNat`
    (so the guard `attempt <= max_retries` holds iff `b > 0`, and the
    in-body exhaustion test `attempt > max_retries` holds iff
    `b = 1`).  A budget of zero exits the loop into the post-loop
    fallthrough report of line 329. -/
def runBudget (env : Env) (M : Int) : Nat → Nat → Option PStr → RunResult
  | 0, _, last => ⟨mkErr (fallthroughMsg M last), 0, [], .fallthrough⟩
  | b + 1, pre, _ =>
      match attemptStep env (pre + 1) with
      | .success r => ⟨r, 1, [], .success⟩
      | .terminal r tg => ⟨r, 1, [], tg⟩
      | .fail k emsg ex =>
          match b with
          | 0 => ⟨mkErr emsg, 1, [], .exhausted k⟩
          | b2 + 1 =>
              consStep k (pre + 1)
                (runBudget env M (b2 + 1) (pre + 1) (some ex))

/-- The retry loop entered at pre-increment counter `pre`, budget
    derived from the integer-valued comparison of the Python code:
    the loop body runs once for each `pre` with `(pre : Int) ≤ M`. -/
def runFrom (env : Env) (M : Int) (pre : Nat) (last : Option PStr) :
    RunResult :=
  runBudget env M (M + 1 - (pre : Int)).toNat pre last

/-- The whole of `get_structured_data_with_gemini` (lines 26-329):
    preflight checks in code order (credential, upstream-error
    sentinels, library initialization, minimum length), then the
    retry loop. -/
def getStructuredDataRun (apiKey textContent : PStr) (M : Int)
    (env : Env) : RunResult :=
  if apiKey = [] ∨ apiKey = chars "YOUR_API_KEY_HERE" ∨
      apiKey = chars "YOUR_API_KEY_HERE_FALLBACK" then
    ⟨mkErr (chars "Gemini API Key not configured."), 0, [], .preKey⟩
  else if chars "Error processing PDF with pdfplumber:" <+: textContent ∨
      chars "Error in preprocess_pdf_text_" <+: textContent then
    ⟨mkErr textContent, 0, [], .preSentinel⟩
  else
    match env.initStage with
    | .importFail m =>
        ⟨mkErr (chars "Failed to import Gemini library: " ++ m), 0, [],
          .preInit⟩
    | .initFail m =>
        ⟨mkErr (chars "Failed to initialize Gemini: " ++ m), 0, [],
          .preInit⟩
    | .ok =>
        if textContent = [] ∨ (pyStrip textContent).length < 50 then
          ⟨mkErr (chars "Text content too short or empty for analysis."),
            0, [], .preShort⟩
        else runFrom env M 0 none

/-- The report returned by `get_structured_data_with_gemini`. -/
def getStructuredData (apiKey textContent : PStr) (M : Int)
    (env : Env) : ParsedDARReport :=
  (getStructuredDataRun apiKey textContent M env).report

/-- The preflight conditions under which the call reaches the retry
    loop: a configured credential, no upstream-error sentinel,
    successful initialization, and long-enough text. -/
def ReachesLoop (apiKey textContent : PStr) (env : Env) : Prop :=
  apiKey ≠ [] ∧ apiKey ≠ chars "YOUR_API_KEY_HERE" ∧
  apiKey ≠ chars "YOUR_API_KEY_HERE_FALLBACK" ∧
  ¬ (chars "Error processing PDF with pdfplumber:" <+: textContent) ∧
  ¬ (chars "Error in preprocess_pdf_text_" <+: textContent) ∧
  env.initStage = .ok ∧
  textContent ≠ [] ∧ 50 ≤ (pyStrip textContent).length

instance (apiKey textContent : PStr) (env : Env) :
    Decidable (ReachesLoop apiKey textContent env) := by
  unfold ReachesLoop; infer_instance

/-- Whether a step outcome is a retryable failure. -/
def isRetryFail (o : StepOutcome) : Prop :=
  match o with
  | .fail _ _ _ => True
  | _ => False

/-- Modelled from the spec: wrap a string in a markdown JSON code
    fence, the fence markers directly adjacent to the payload (the
    exact inverse of the single-marker stripping done by `sanitize`). -/
def fenceWrap (s : PStr) : PStr := chars "```json" ++ s ++ chars "```"

/-- A well-formed (non-placeholder) API key used in concrete runs. -/
def wKey : PStr := chars "AIzaSyDummyKey123456"

/-- A well-formed input text of more than 50 characters. -/
def wText : PStr :=
  chars "This is a long enough departmental audit report text for analysis purposes!"

/-- A model that never returns a response object. -/
def envNoResp : Env :=
  ⟨.ok, fun _ => .noResponse, fun _ => .error []⟩

/-- A model whose response text is a bare fence, hence empty after
    cleaning. -/
def envClean : Env :=
  ⟨.ok, fun _ => .response (chars "```"), fun _ => .error []⟩

/-- A model call that raises an error mentioning both a rate limit and
    billing. -/
def envBillingRate : Env :=
  ⟨.ok, fun _ => .raise (chars "ApiError")
      (chars "rate limit, check billing"), fun _ => .error []⟩

/-- A model call that raises a purely billing-related error. -/
def envBilling : Env :=
  ⟨.ok, fun _ => .raise (chars "ApiError")
      (chars "billing account misconfigured"), fun _ => .error []⟩

/-- An opening brace character (kept out of string literals). -/
def lb : Char := Char.ofNat 123

/-- A closing brace character. -/
def rb : Char := Char.ofNat 125

/-- A JSON response that carries both required keys and its own
    non-null `parsing_errors` field. -/
def respNote : PStr :=
  [lb] ++ chars "\"header\": " ++ [lb] ++ [rb] ++
    chars ", \"audit_paras\": [], \"parsing_errors\": \"model note\"" ++ [rb]

/-- The decoded JSON object of `respNote`. -/
def fieldsNote : List (PStr × JValue) :=
  [(chars "header", .obj []), (chars "audit_paras", .arr []),
   (chars "parsing_errors", .str (chars "model note"))]

/-- A model returning `respNote`, with a decoder oracle that agrees
    with `json.loads` on that response. -/
def envNote : Env :=
  ⟨.ok, fun _ => .response respNote,
   fun c => if c = respNote then .ok (.obj fieldsNote)
            else .error (chars "Expecting value: line 1 column 1 (char 0)")⟩

/-- A JSON response with both required keys and no `parsing_errors`
    field. -/
def respPlain : PStr :=
  [lb] ++ chars "\"header\": " ++ [lb] ++ [rb] ++
    chars ", \"audit_paras\": []" ++ [rb]

/-- The decoded JSON object of `respPlain`. -/
def fieldsPlain : List (PStr × JValue) :=
  [(chars "header", .obj []), (chars "audit_paras", .arr [])]

/-- A model returning `respPlain`. -/
def envPlain : Env :=
  ⟨.ok, fun _ => .response respPlain,
   fun c => if c = respPlain then .ok (.obj fieldsPlain)
            else .error (chars "Expecting value: line 1 column 1 (char 0)")⟩

/-- A JSON response that lacks the `header` key. -/
def respNoHeader : PStr := [lb] ++ chars "\"audit_paras\": []" ++ [rb]

/-- The decoded JSON object of `respNoHeader`. -/
def fieldsNoHeader : List (PStr × JValue) := [(chars "audit_paras", .arr [])]

/-- A model returning `respNoHeader`. -/
def envNoHeader : Env :=
  ⟨.ok, fun _ => .response respNoHeader,
   fun c => if c = respNoHeader then .ok (.obj fieldsNoHeader)
            else .error (chars "Expecting value: line 1 column 1 (char 0)")⟩

/-- A JSON response that lacks the `audit_paras` key. -/
def respNoParas : PStr := [lb] ++ chars "\"header\": " ++ [lb] ++ [rb] ++ [rb]

/-- The decoded JSON object of `respNoParas`. -/
def fieldsNoParas : List (PStr × JValue) := [(chars "header", .obj [])]

/-- A model returning `respNoParas`. -/
def envNoParas : Env :=
  ⟨.ok, fun _ => .response respNoParas,
   fun c => if c = respNoParas then .ok (.obj fieldsNoParas)
            else .error (chars "Expecting value: line 1 column 1 (char 0)")⟩

/-- An input text carrying the upstream pdfplumber error sentinel. -/
def sentText : PStr := chars "Error processing PDF with pdfplumber: boom"

/-- A list is an infix of anything built around it. -/
theorem mentions_shape {n A B : PStr} : n <:+: A ++ n ++ B := ⟨A, B, rfl⟩

/-- Every retryable diagnostic interpolates the attempt number. -/
theorem noRespMsg_mentions (a : Nat) : natChars a <:+: noRespMsg a :=
  mentions_shape

theorem emptyTextMsg_mentions (a : Nat) : natChars a <:+: emptyTextMsg a :=
  mentions_shape

theorem emptyCleanMsg_mentions (a : Nat) : natChars a <:+: emptyCleanMsg a :=
  mentions_shape

theorem invalidJsonMsg_mentions (a : Nat) (js : PStr) :
    natChars a <:+: invalidJsonMsg a js := mentions_shape

theorem validationMsg_mentions (a : Nat) (ps : PStr) :
    natChars a <:+: validationMsg a ps := mentions_shape

theorem quotaMsg_mentions (a : Nat) : natChars a <:+: quotaMsg a :=
  mentions_shape

theorem resourceMsg_mentions (a : Nat) : natChars a <:+: resourceMsg a :=
  mentions_shape

theorem genericMsg_mentions (a : Nat) (ty s : PStr) :
    natChars a <:+: genericMsg a ty s := mentions_shape

/-- A retryable failure produced by the exception classifier carries a
    diagnostic that interpolates the attempt number. -/
theorem handleExc_fail_mentions {ty s : PStr} {a : Nat} {k : FailKind}
    {e x : PStr} (h : handleExc ty s a = .fail k e x) :
    natChars a <:+: e := by
  unfold handleExc at h
  split at h
  · cases h; exact quotaMsg_mentions a
  · split at h
    · cases h
    · split at h
      · cases h
      · split at h
        · cases h; exact resourceMsg_mentions a
        · cases h; exact genericMsg_mentions a ty s

/-- A retryable failure of the attempt body carries a diagnostic that
    interpolates the attempt number. -/
theorem attemptStep_fail_mentions {env : Env} {a : Nat} {k : FailKind}
    {e x : PStr} (h : attemptStep env a = .fail k e x) :
    natChars a <:+: e := by
  unfold attemptStep at h
  split at h
  · cases h; exact noRespMsg_mentions a
  · exact handleExc_fail_mentions h
  · split at h
    · cases h; exact emptyTextMsg_mentions a
    · split at h
      · cases h; exact emptyCleanMsg_mentions a
      · split at h
        · cases h; exact invalidJsonMsg_mentions a _
        · split at h
          · exact handleExc_fail_mentions h
          · split at h
            · cases h
            · cases h; exact validationMsg_mentions a _

/-- Terminal outcomes of the classifier carry a diagnostic. -/
theorem handleExc_terminal_some {ty s : PStr} {a : Nat}
    {r : ParsedDARReport} {tg : ExitTag}
    (h : handleExc ty s a = .terminal r tg) :
    ∃ m, r.parsing_errors = some m := by
  unfold handleExc at h
  split at h
  · cases h
  · split at h
    · cases h; exact ⟨billingMsg, rfl⟩
    · split at h
      · cases h; exact ⟨authMsg, rfl⟩
      · split at h
        · cases h
        · cases h

/-- Terminal outcomes of the attempt body carry a diagnostic. -/
theorem attemptStep_terminal_some {env : Env} {a : Nat}
    {r : ParsedDARReport} {tg : ExitTag}
    (h : attemptStep env a = .terminal r tg) :
    ∃ m, r.parsing_errors = some m := by
  unfold attemptStep at h
  split at h
  · cases h
  · exact handleExc_terminal_some h
  · split at h
    · cases h
    · split at h
      · cases h
      · split at h
        · cases h
        · split at h
          · exact handleExc_terminal_some h
          · split at h
            · cases h
            · cases h

/-- A retryable step outcome is a `fail`. -/
theorem retryFail_elim {o : StepOutcome} (h : isRetryFail o) :
    ∃ k e x, o = .fail k e x := by
  cases o with
  | success r => exact h.elim
  | terminal r tg => exact h.elim
  | fail k e x => exact ⟨k, e, x, rfl⟩

/-- Every run of the loop either returns the constructed report or
    returns a report carrying a diagnostic. -/
theorem runBudget_diagnosed (env : Env) (M : Int) :
    ∀ b pre last, (runBudget env M b pre last).tag = .success ∨
      ∃ m, (runBudget env M b pre last).report.parsing_errors = some m := by
  intro b
  induction b with
  | zero => intro pre last; exact Or.inr ⟨_, rfl⟩
  | succ b ih =>
      intro pre last
      rw [runBudget]
      cases hstep : attemptStep env (pre + 1) with
      | success r => exact Or.inl rfl
      | terminal r tg =>
          exact Or.inr (attemptStep_terminal_some hstep)
      | fail k emsg ex =>
          cases b with
          | zero => exact Or.inr ⟨emsg, rfl⟩
          | succ b2 =>
              rcases ih (pre + 1) (some ex) with htag | ⟨m, hm⟩
              · exact Or.inl htag
              · exact Or.inr ⟨m, hm⟩

/-- The classifier only ever terminates with the billing or auth tag. -/
theorem handleExc_terminal_tag {ty s : PStr} {a : Nat}
    {r : ParsedDARReport} {tg : ExitTag}
    (h : handleExc ty s a = .terminal r tg) :
    tg = .billing ∨ tg = .auth := by
  unfold handleExc at h
  split at h
  · cases h
  · split at h
    · cases h; exact Or.inl rfl
    · split at h
      · cases h; exact Or.inr rfl
      · split at h
        · cases h
        · cases h

/-- The attempt body only ever terminates with the billing or auth
    tag. -/
theorem attemptStep_terminal_tag {env : Env} {a : Nat}
    {r : ParsedDARReport} {tg : ExitTag}
    (h : attemptStep env a = .terminal r tg) :
    tg = .billing ∨ tg = .auth := by
  unfold attemptStep at h
  split at h
  · cases h
  · exact handleExc_terminal_tag h
  · split at h
    · cases h
    · split at h
      · cases h
      · split at h
        · cases h
        · split at h
          · exact handleExc_terminal_tag h
          · split at h
            · cases h
            · cases h

/-- With a positive budget the loop is always left through one of its
    `return` statements, never through the guard. -/
theorem runBudget_no_fallthrough (env : Env) (M : Int) :
    ∀ b pre last, (runBudget env M (b + 1) pre last).tag ≠ .fallthrough := by
  intro b
  induction b with
  | zero =>
      intro pre last
      rw [runBudget]
      cases hstep : attemptStep env (pre + 1) with
      | success r => simp
      | terminal r tg =>
          rcases attemptStep_terminal_tag hstep with h | h <;> subst h <;> simp
      | fail k e x => simp
  | succ b2 ih =>
      intro pre last
      rw [runBudget]
      cases hstep : attemptStep env (pre + 1) with
      | success r => simp
      | terminal r tg =>
          rcases attemptStep_terminal_tag hstep with h | h <;> subst h <;> simp
      | fail k e x =>
          show (consStep k (pre + 1)
              (runBudget env M (b2 + 1) (pre + 1) (some x))).tag ≠ _
          simpa [consStep] using ih (pre + 1) (some x)

/-- The loop performs at most one model call per unit of budget. -/
theorem runBudget_calls_le (env : Env) (M : Int) :
    ∀ b pre last, (runBudget env M b pre last).calls ≤ b := by
  intro b
  induction b with
  | zero => intro pre last; exact Nat.le_refl 0
  | succ b ih =>
      intro pre last
      rw [runBudget]
      cases hstep : attemptStep env (pre + 1) with
      | success r => exact Nat.succ_le_succ (Nat.zero_le b)
      | terminal r tg => exact Nat.succ_le_succ (Nat.zero_le b)
      | fail k e x =>
          cases b with
          | zero => exact Nat.le_refl 1
          | succ b2 =>
              have h := ih (pre + 1) (some x)
              show (consStep k (pre + 1)
                  (runBudget env M (b2 + 1) (pre + 1) (some x))).calls ≤ _
              simp only [consStep]
              omega

/-- When every attempt within the budget fails retryably, the loop
    consumes its whole budget — one model call per attempt — and exits
    with the exhaustion diagnostic of the final attempt, which
    interpolates the final attempt number. -/
theorem runBudget_allfail (env : Env) (M : Int) :
    ∀ b pre last,
      (∀ a, pre < a → a ≤ pre + (b + 1) → isRetryFail (attemptStep env a)) →
      (runBudget env M (b + 1) pre last).calls = b + 1 ∧
      ∃ k e, (runBudget env M (b + 1) pre last).tag = .exhausted k ∧
        (runBudget env M (b + 1) pre last).report.parsing_errors = some e ∧
        natChars (pre + (b + 1)) <:+: e := by
  intro b
  induction b with
  | zero =>
      intro pre last hf
      obtain ⟨k, e, x, hstep⟩ :=
        retryFail_elim (hf (pre + 1) (Nat.lt_succ_self pre) (by omega))
      rw [runBudget, hstep]
      exact ⟨rfl, k, e, rfl, rfl, attemptStep_fail_mentions hstep⟩
  | succ b2 ih =>
      intro pre last hf
      obtain ⟨k, e, x, hstep⟩ :=
        retryFail_elim (hf (pre + 1) (Nat.lt_succ_self pre) (by omega))
      rw [runBudget, hstep]
      obtain ⟨hc, k2, e2, htag, hrep, hmen⟩ :=
        ih (pre + 1) (some x) (fun a h1 h2 => hf a (by omega) (by omega))
      refine ⟨?_, k2, e2, ?_, ?_, ?_⟩
      · show (consStep k (pre + 1)
            (runBudget env M (b2 + 1) (pre + 1) (some x))).calls = _
        simp only [consStep]
        omega
      · simpa [consStep] using htag
      · simpa [consStep] using hrep
      · have hpp : (pre + 1) + (b2 + 1) = pre + (b2 + 1 + 1) := by omega
        rw [hpp] at hmen
        exact hmen

/-- Under the preflight conditions the call is the retry loop started
    at pre-increment counter zero. -/
theorem reaches_loop_run {apiKey text : PStr} {env : Env} (M : Int)
    (h : ReachesLoop apiKey text env) :
    getStructuredDataRun apiKey text M env = runFrom env M 0 none := by
  obtain ⟨h1, h2, h3, h4, h5, h6, h7, h8⟩ := h
  simp only [getStructuredDataRun, h6]
  rw [if_neg (by tauto), if_neg (by tauto), if_neg ?hlen]
  case hlen =>
    rintro (hz | hlt)
    · exact h7 hz
    · omega

/-- Every return path of the call either carries the successfully
    constructed report or a report with a diagnostic. -/
theorem getStructuredDataRun_diagnosed (apiKey text : PStr) (M : Int)
    (env : Env) :
    (getStructuredDataRun apiKey text M env).tag = .success ∨
    ∃ m, (getStructuredDataRun apiKey text M env).report.parsing_errors
        = some m := by
  unfold getStructuredDataRun
  split
  · exact Or.inr ⟨_, rfl⟩
  · split
    · exact Or.inr ⟨_, rfl⟩
    · split
      · exact Or.inr ⟨_, rfl⟩
      · exact Or.inr ⟨_, rfl⟩
      · split
        · exact Or.inr ⟨_, rfl⟩
        · exact runBudget_diagnosed env M _ 0 none

/-- Setting a key makes it present with the new value. -/
theorem lookup_setKey_self (fs : List (PStr × JValue)) (k : PStr)
    (v : JValue) : lookupKey (setKey fs k v) k = some v := by
  induction fs with
  | nil => simp [setKey, lookupKey]
  | cons kv rest ih =>
      obtain ⟨ka, va⟩ := kv
      by_cases h : ka = k
      · simp [setKey, lookupKey, h]
      · simp [setKey, lookupKey, h, ih]

/-- Setting a key leaves every other key unchanged. -/
theorem lookup_setKey_other (fs : List (PStr × JValue)) (k k2 : PStr)
    (v : JValue) (h : k2 ≠ k) :
    lookupKey (setKey fs k v) k2 = lookupKey fs k2 := by
  have hks : ¬ (k = k2) := fun hh => h hh.symm
  induction fs with
  | nil =>
      simp [setKey, lookupKey, hks]
  | cons kv rest ih =>
      obtain ⟨ka, va⟩ := kv
      by_cases hk : ka = k
      · subst hk
        simp [setKey, lookupKey, hks]
      · by_cases hk2 : ka = k2
        · subst hk2
          simp [setKey, lookupKey, hk]
        · simp [setKey, lookupKey, hk, hk2, ih]

/-- Dropping a satisfied-free prefix: if `dropWhile` keeps `l` whole
    and `l` is nonempty, it also keeps `l ++ m` whole. -/
theorem dropWhile_append_keep {p : Char → Bool} {l m : PStr}
    (hl : l.dropWhile p = l) (hne : l ≠ []) :
    (l ++ m).dropWhile p = l ++ m := by
  cases l with
  | nil => exact absurd rfl hne
  | cons c t =>
      have hc : p c = false := by
        by_contra hpc
        rw [List.dropWhile_cons, if_pos (by simpa using hpc)] at hl
        have hlen : (t.dropWhile p).length ≤ t.length :=
          (List.dropWhile_suffix p).length_le
        rw [hl] at hlen
        simp only [List.length_cons] at hlen
        omega
      rw [List.cons_append, List.dropWhile_cons, if_neg (by simp [hc])]

/-- Python strip is the identity on a text that starts and ends with a
    non-whitespace block. -/
theorem pyStrip_append_append {A B : PStr} (s : PStr)
    (hA : A.dropWhile Char.isWhitespace = A) (hAne : A ≠ [])
    (hB : B.reverse.dropWhile Char.isWhitespace = B.reverse)
    (hBne : B.reverse ≠ []) :
    pyStrip (A ++ s ++ B) = A ++ s ++ B := by
  unfold pyStrip
  rw [List.append_assoc, dropWhile_append_keep hA hAne,
      List.reverse_append, List.reverse_append, List.append_assoc,
      dropWhile_append_keep hB hBne]
  simp [List.reverse_append, List.append_assoc]

/-- C1: for every credential string, input text, retry budget and
    behaviour of the remote model (per attempt: a response object, an
    empty/absent text payload, or a raised exception of arbitrary
    text), `get_structured_data_with_gemini` returns a
    `ParsedDARReport` — the embedding is a total function, so no
    exception escapes — and every return path other than the
    full-success construction of line 267 yields a report whose
    `parsing_errors` is a non-null diagnostic string. -/
theorem c1_always_returns_diagnosed (apiKey text : PStr) (M : Int)
    (env : Env)
    (h : (getStructuredDataRun apiKey text M env).tag ≠ .success) :
    ∃ m, (getStructuredDataRun apiKey text M env).report.parsing_errors
        = some m := by
  rcases getStructuredDataRun_diagnosed apiKey text M env with ht | hm
  · exact absurd ht h
  · exact hm

/-- C1 witness: a concrete non-success run (missing API key) carries a
    diagnostic. -/
theorem c1_witness :
    ∃ m, (getStructuredDataRun [] [] 2 envNoResp).report.parsing_errors
        = some m :=
  c1_always_returns_diagnosed [] [] 2 envNoResp (by decide)

/-- C8: for every input whose trimmed length is under 50 characters
    (including the empty string), the call returns in a single pass:
    no model call, no back-off sleep, empty header and line items, and
    a non-null `parsing_errors`. -/
theorem c8_short_input_rejected (apiKey text : PStr) (M : Int)
    (env : Env) (h : (pyStrip text).length < 50) :
    (getStructuredDataRun apiKey text M env).calls = 0 ∧
    (getStructuredDataRun apiKey text M env).sleeps = [] ∧
    (getStructuredDataRun apiKey text M env).report.header = {} ∧
    (getStructuredDataRun apiKey text M env).report.audit_paras = [] ∧
    ∃ m, (getStructuredDataRun apiKey text M env).report.parsing_errors
        = some m := by
  unfold getStructuredDataRun
  split
  · exact ⟨rfl, rfl, rfl, rfl, _, rfl⟩
  · split
    · exact ⟨rfl, rfl, rfl, rfl, _, rfl⟩
    · split
      · exact ⟨rfl, rfl, rfl, rfl, _, rfl⟩
      · exact ⟨rfl, rfl, rfl, rfl, _, rfl⟩
      · split
        · exact ⟨rfl, rfl, rfl, rfl, _, rfl⟩
        · rename_i hcond
          exact absurd (Or.inr h) hcond

/-- C8 witness: a concrete short input. -/
theorem c8_witness :
    (getStructuredDataRun wKey (chars "short") 2 envNoResp).calls = 0 ∧
    (getStructuredDataRun wKey (chars "short") 2 envNoResp).sleeps = [] ∧
    (getStructuredDataRun wKey (chars "short") 2
        envNoResp).report.header = {} ∧
    (getStructuredDataRun wKey (chars "short") 2
        envNoResp).report.audit_paras = [] ∧
    ∃ m, (getStructuredDataRun wKey (chars "short") 2
        envNoResp).report.parsing_errors = some m :=
  c8_short_input_rejected wKey (chars "short") 2 envNoResp (by decide)

/-- C9 counterexample: the credential preflight runs before the
    sentinel check, so with an unconfigured API key a sentinel input
    is not propagated verbatim — the claim fails at `api_key = ""`,
    `text_content = "Error processing PDF with pdfplumber: boom"`. -/
theorem c9_cex_key_preflight_first :
    (chars "Error processing PDF with pdfplumber:" <+: sentText) ∧
    (getStructuredDataRun [] sentText 2 envNoResp).report.parsing_errors
      ≠ some sentText := by decide

/-- C9 (amended): for every input beginning with a recognized
    upstream-error sentinel, provided the API key passes the
    credential preflight (non-empty and not a placeholder), the call
    makes no model call, performs no sleep, and returns the input
    string verbatim as `parsing_errors`. -/
theorem c9_amended_sentinel_verbatim (apiKey text : PStr) (M : Int)
    (env : Env) (h1 : apiKey ≠ []) (h2 : apiKey ≠ chars "YOUR_API_KEY_HERE")
    (h3 : apiKey ≠ chars "YOUR_API_KEY_HERE_FALLBACK")
    (hs : chars "Error processing PDF with pdfplumber:" <+: text ∨
          chars "Error in preprocess_pdf_text_" <+: text) :
    (getStructuredDataRun apiKey text M env).report.parsing_errors
        = some text ∧
    (getStructuredDataRun apiKey text M env).calls = 0 ∧
    (getStructuredDataRun apiKey text M env).sleeps = [] := by
  unfold getStructuredDataRun
  rw [if_neg (by tauto), if_pos hs]
  exact ⟨rfl, rfl, rfl⟩

/-- C9 witness: a concrete sentinel input with a configured key. -/
theorem c9_witness :
    (getStructuredDataRun wKey sentText 2 envNoResp).report.parsing_errors
        = some sentText ∧
    (getStructuredDataRun wKey sentText 2 envNoResp).calls = 0 ∧
    (getStructuredDataRun wKey sentText 2 envNoResp).sleeps = [] :=
  c9_amended_sentinel_verbatim wKey sentText 2 envNoResp (by decide)
    (by decide) (by decide) (by decide)

/-- C10: with a non-negative `max_retries` the post-loop fallthrough
    return of line 329 is unreachable — the loop is always left
    through a `return` — and it is reached (producing the
    "failed after N attempts, Last error: None" record) exactly when
    the caller passes a negative `max_retries` and the preflight
    checks pass. -/
theorem c10_fallthrough_only_negative (apiKey text : PStr) (M : Int)
    (env : Env) :
    (0 ≤ M →
      (getStructuredDataRun apiKey text M env).tag ≠ .fallthrough) ∧
    (M < 0 → ReachesLoop apiKey text env →
      (getStructuredDataRun apiKey text M env).tag = .fallthrough ∧
      (getStructuredDataRun apiKey text M env).report =
        mkErr (fallthroughMsg M none)) := by
  constructor
  · intro h0
    unfold getStructuredDataRun
    split
    · simp
    · split
      · simp
      · split
        · simp
        · simp
        · split
          · simp
          · unfold runFrom
            obtain ⟨b, hb⟩ : ∃ b, (M + 1 - ((0 : Nat) : Int)).toNat = b + 1 :=
              ⟨(M + 1 - ((0 : Nat) : Int)).toNat - 1, by omega⟩
            rw [hb]
            exact runBudget_no_fallthrough env M b 0 none
  · intro hneg hreach
    rw [reaches_loop_run M hreach]
    unfold runFrom
    have hb : (M + 1 - ((0 : Nat) : Int)).toNat = 0 := by omega
    rw [hb, runBudget]
    exact ⟨rfl, rfl⟩

/-- C10 witness: concrete runs on both sides of the budget sign. -/
theorem c10_witness :
    (getStructuredDataRun wKey wText 2 envNoResp).tag ≠ .fallthrough ∧
    (getStructuredDataRun wKey wText (-1) envNoResp).tag = .fallthrough :=
  ⟨(c10_fallthrough_only_negative wKey wText 2 envNoResp).1 (by decide),
   ((c10_fallthrough_only_negative wKey wText (-1) envNoResp).2
     (by decide) (by decide)).1⟩

/-- C2: with preflight passing and every attempt failing retryably,
    the call performs exactly `max_retries + 1` model calls and the
    returned diagnostic interpolates the final attempt count; and with
    the default `max_retries = 2` every call — any behaviour at all —
    performs at most 3 model calls. -/
theorem c2_exhausts_budget (apiKey text : PStr) (m : Nat) (env : Env)
    (hreach : ReachesLoop apiKey text env)
    (hfail : ∀ a, 0 < a → a ≤ m + 1 → isRetryFail (attemptStep env a)) :
    ((getStructuredDataRun apiKey text (m : Int) env).calls = m + 1 ∧
     ∃ e, (getStructuredDataRun apiKey text (m : Int)
         env).report.parsing_errors = some e ∧
       natChars (m + 1) <:+: e) ∧
    (∀ (k2 t2 : PStr) (env2 : Env),
      (getStructuredDataRun k2 t2 (2 : Int) env2).calls ≤ 3) := by
  constructor
  · rw [reaches_loop_run (m : Int) hreach]
    unfold runFrom
    have hb : ((m : Int) + 1 - ((0 : Nat) : Int)).toNat = m + 1 := by omega
    rw [hb]
    obtain ⟨hc, k, e, htag, hrep, hmen⟩ :=
      runBudget_allfail env (m : Int) m 0 none
        (fun a h1 h2 => hfail a h1 (by omega))
    have hz : 0 + (m + 1) = m + 1 := by omega
    rw [hz] at hmen
    exact ⟨hc, e, hrep, hmen⟩
  · intro k2 t2 env2
    unfold getStructuredDataRun
    split
    · exact Nat.zero_le 3
    · split
      · exact Nat.zero_le 3
      · split
        · exact Nat.zero_le 3
        · exact Nat.zero_le 3
        · split
          · exact Nat.zero_le 3
          · unfold runFrom
            have h := runBudget_calls_le env2 2
              (((2 : Int) + 1 - ((0 : Nat) : Int)).toNat) 0 none
            have he : (((2 : Int)) + 1 - ((0 : Nat) : Int)).toNat = 3 := by
              decide
            rw [he] at h
            exact h

/-- C2 witness: a model that never responds exhausts a budget of one
    retry in exactly two calls, and the default budget bound holds on
    a concrete run. -/
theorem c2_witness :
    (getStructuredDataRun wKey wText ((1 : Nat) : Int) envNoResp).calls
        = 1 + 1 ∧
    (getStructuredDataRun wKey wText (2 : Int) envNoResp).calls ≤ 3 := by
  have h := c2_exhausts_budget wKey wText 1 envNoResp (by decide)
    (fun a h1 h2 => trivial)
  exact ⟨h.1.1, h.2 wKey wText envNoResp⟩

/-- C3 counterexample: a response that is empty after cleaning on
    attempt 1, with retries available, is followed by a sleep of
    `5 + attempt = 6` seconds — not the claimed `5 + attempt*2 = 7`. -/
theorem c3_cex_empty_after_clean_backoff :
    (getStructuredDataRun wKey wText 1 envClean).sleeps = [6] ∧
    (6 : Nat) ≠ 5 + 1 * 2 := by decide

/-- C3 (amended): before re-entering the loop on a non-final attempt
    the orchestrator sleeps the kind-specific flat back-off:
    `5 + attempt*2` seconds for EmptyResponse (no response or empty
    text), InvalidJson, SchemaViolation and generic API errors, but
    `5 + attempt` seconds for EmptyAfterClean; exactly 30 seconds for
    a raised error whose text contains "quota" (which is retried, not
    terminated); and exactly 60 seconds for a raised error whose text
    contains "resource_exhausted" and none of the higher-priority
    keywords quota/rate/billing/api_key/auth. -/
theorem c3_amended_backoff (env : Env) (M : Int) (pre : Nat)
    (last : Option PStr) (ty s : PStr)
    (hle : ((pre + 1 : Nat) : Int) ≤ M) :
    (∀ k e x, attemptStep env (pre + 1) = .fail k e x →
      (runFrom env M pre last).sleeps.head? = some (waitFor k (pre + 1))) ∧
    (waitFor .noResponse (pre + 1) = 5 + (pre + 1) * 2 ∧
     waitFor .emptyText (pre + 1) = 5 + (pre + 1) * 2 ∧
     waitFor .invalidJson (pre + 1) = 5 + (pre + 1) * 2 ∧
     waitFor .validation (pre + 1) = 5 + (pre + 1) * 2 ∧
     waitFor .generic (pre + 1) = 5 + (pre + 1) * 2 ∧
     waitFor .emptyClean (pre + 1) = 5 + (pre + 1) ∧
     waitFor .quota (pre + 1) = 30 ∧
     waitFor .resource (pre + 1) = 60) ∧
    (containsLow s "quota" →
      handleExc ty s (pre + 1) = .fail .quota (quotaMsg (pre + 1)) s) ∧
    (¬ containsLow s "quota" → ¬ containsLow s "rate" →
     ¬ containsLow s "billing" → ¬ containsUp s "API_KEY" →
     ¬ containsLow s "auth" → containsUp s "RESOURCE_EXHAUSTED" →
      handleExc ty s (pre + 1) = .fail .resource (resourceMsg (pre + 1)) s) ∧
    (env.gen (pre + 1) = .raise ty s →
      attemptStep env (pre + 1) = handleExc ty s (pre + 1)) := by
  refine ⟨?_, ⟨rfl, rfl, rfl, rfl, rfl, rfl, rfl, rfl⟩, ?_, ?_, ?_⟩
  · intro k e x hstep
    unfold runFrom
    obtain ⟨b2, hb⟩ : ∃ b2, (M + 1 - ((pre : Nat) : Int)).toNat = b2 + 2 :=
      ⟨(M + 1 - ((pre : Nat) : Int)).toNat - 2, by omega⟩
    rw [hb, runBudget, hstep]
    simp [consStep]
  · intro hq
    unfold handleExc
    rw [if_pos (Or.inl hq)]
  · intro hq hr hb ha1 ha2 hres
    unfold handleExc
    rw [if_neg (by tauto), if_neg hb, if_neg (by tauto), if_pos hres]
  · intro hg
    unfold attemptStep
    rw [hg]

/-- C3 witness: the empty-response back-off at attempt 1 is 7 seconds,
    and a "quota" error is classified for retry with the 30-second
    wait. -/
theorem c3_witness :
    (runFrom envNoResp 1 0 none).sleeps.head? = some 7 ∧
    handleExc (chars "ApiError") (chars "quota exceeded") 1 =
      .fail .quota (quotaMsg 1) (chars "quota exceeded") := by
  have h := c3_amended_backoff envNoResp 1 0 none (chars "ApiError")
    (chars "quota exceeded") (by decide)
  refine ⟨?_, h.2.2.1 (by decide)⟩
  have h1 := h.1 .noResponse (noRespMsg 1) (noRespMsg 1) (by decide)
  simpa [waitFor] using h1

/-- C6 counterexample: the quota/rate branch is tested first, so a
    raised error containing both "rate" and "billing" is retried with
    a 30-second sleep instead of terminating immediately with the
    billing message — two calls and one sleep refute the claim. -/
theorem c6_cex_keyword_priority :
    containsLow (chars "rate limit, check billing") "billing" ∧
    (getStructuredDataRun wKey wText 1 envBillingRate).calls = 2 ∧
    (getStructuredDataRun wKey wText 1 envBillingRate).sleeps = [30] ∧
    (getStructuredDataRun wKey wText 1 envBillingRate).report ≠
      mkErr billingMsg := by decide

/-- C6 (amended): a raised model-call error whose text contains
    "billing" (case-insensitively) and none of the higher-priority
    keywords "quota"/"rate" terminates the call immediately after that
    single attempt — one call, no sleep — with the billing-specific
    message; likewise an error containing "api_key" (compared upper
    case) or "auth", with no "quota"/"rate"/"billing", terminates
    immediately with the authentication-specific message. -/
theorem c6_amended_terminal_config_errors (apiKey text ty s : PStr)
    (M : Int) (env : Env) (hreach : ReachesLoop apiKey text env)
    (hM : 0 ≤ M) (hgen : env.gen 1 = .raise ty s)
    (hq : ¬ containsLow s "quota") (hr : ¬ containsLow s "rate") :
    (containsLow s "billing" →
      (getStructuredDataRun apiKey text M env).report = mkErr billingMsg ∧
      (getStructuredDataRun apiKey text M env).calls = 1 ∧
      (getStructuredDataRun apiKey text M env).sleeps = [] ∧
      (getStructuredDataRun apiKey text M env).tag = .billing) ∧
    (¬ containsLow s "billing" →
     (containsUp s "API_KEY" ∨ containsLow s "auth") →
      (getStructuredDataRun apiKey text M env).report = mkErr authMsg ∧
      (getStructuredDataRun apiKey text M env).calls = 1 ∧
      (getStructuredDataRun apiKey text M env).sleeps = [] ∧
      (getStructuredDataRun apiKey text M env).tag = .auth) := by
  rw [reaches_loop_run M hreach]
  unfold runFrom
  obtain ⟨b, hb⟩ : ∃ b, (M + 1 - ((0 : Nat) : Int)).toNat = b + 1 :=
    ⟨(M + 1 - ((0 : Nat) : Int)).toNat - 1, by omega⟩
  rw [hb]
  have hgen1 : attemptStep env 1 = handleExc ty s 1 := by
    unfold attemptStep
    rw [hgen]
  constructor
  · intro hbill
    have hstep : attemptStep env (0 + 1) = .terminal (mkErr billingMsg)
        .billing := by
      rw [Nat.zero_add, hgen1]
      unfold handleExc
      rw [if_neg (by tauto), if_pos hbill]
    rw [runBudget, hstep]
    exact ⟨rfl, rfl, rfl, rfl⟩
  · intro hnb hau
    have hstep : attemptStep env (0 + 1) = .terminal (mkErr authMsg)
        .auth := by
      rw [Nat.zero_add, hgen1]
      unfold handleExc
      rw [if_neg (by tauto), if_neg hnb, if_pos hau]
    rw [runBudget, hstep]
    exact ⟨rfl, rfl, rfl, rfl⟩

/-- C6 witness: a purely billing-related raised error terminates in
    one call with no sleep and the billing message. -/
theorem c6_witness :
    (getStructuredDataRun wKey wText 2 envBilling).report =
        mkErr billingMsg ∧
    (getStructuredDataRun wKey wText 2 envBilling).calls = 1 ∧
    (getStructuredDataRun wKey wText 2 envBilling).sleeps = [] := by
  have h := (c6_amended_terminal_config_errors wKey wText
    (chars "ApiError") (chars "billing account misconfigured") 2
    envBilling (by decide) (by decide) rfl (by decide) (by decide)).1
    (by decide)
  exact ⟨h.1, h.2.1, h.2.2.1⟩

/-- C4: the fence-stripping step is a no-op on an already-clean string
    (no surrounding whitespace, no leading or trailing back-tick), and
    it inverts fence wrapping: for every payload with no leading or
    trailing whitespace, stripping the fence-wrapped payload returns
    the payload. -/
theorem c4_sanitize_round_trip (s : PStr) (hs : pyStrip s = s) :
    ((¬ chars "`" <+: s) → (¬ chars "`" <:+ s) → sanitize s = s) ∧
    sanitize (fenceWrap s) = s := by
  constructor
  · intro hp hsuf
    unfold sanitize
    rw [hs]
    unfold stripFencePre
    rw [if_neg (fun hc => hp ((by decide :
          chars "`" <+: chars "```json").trans hc)),
        if_neg (fun hc => hp ((by decide :
          chars "`" <+: chars "```").trans hc)),
        if_neg (fun hc => hp ((by decide :
          chars "`" <+: chars "`json").trans hc)),
        if_neg hp]
    unfold stripFenceSuf
    rw [if_neg (fun hc => hsuf ((by decide :
          chars "`" <:+ chars "```").trans hc)),
        if_neg hsuf]
  · unfold sanitize fenceWrap
    rw [pyStrip_append_append s (by decide) (by decide) (by decide)
      (by decide)]
    unfold stripFencePre
    rw [List.append_assoc, if_pos (List.prefix_append _ _)]
    have h7 : (chars "```json").length = 7 := by decide
    rw [← h7, List.drop_left]
    unfold stripFenceSuf
    rw [if_pos (List.suffix_append _ _)]
    have hlen : (s ++ chars "```").length - 3 = s.length := by
      have h3 : (chars "```").length = 3 := by decide
      simp [List.length_append, h3]
    rw [hlen, List.take_left]

/-- C4 witness: a concrete clean payload. -/
theorem c4_witness :
    sanitize (fenceWrap (chars "null")) = chars "null" ∧
    sanitize (chars "null") = chars "null" := by
  have h := c4_sanitize_round_trip (chars "null") (by decide)
  exact ⟨h.2, h.1 (by decide) (by decide)⟩

/-- C5 counterexample: the model may itself populate the
    `parsing_errors` field of its JSON; a fully successful parse with
    both required keys present then returns a record with non-null
    `parsing_errors` even though the lenient fallback was not taken,
    refuting the claim that `parsing_errors` is null on every such
    path. -/
theorem c5_cex_model_supplied_note :
    (getStructuredDataRun wKey wText 2 envNote).tag = .success ∧
    (lookupKey fieldsNote (chars "header")).isSome = true ∧
    (lookupKey fieldsNote (chars "audit_paras")).isSome = true ∧
    (getStructuredDataRun wKey wText 2 envNote).report.parsing_errors
      ≠ none := by decide

/-- C5 (amended): when the sanitized response parses as a JSON object
    with both the `header` and `audit_paras` keys and coercion
    succeeds, the call returns exactly the coerced record; its
    `parsing_errors` equals the coerced value of the object's own
    `parsing_errors` key, hence is null whenever that key is absent or
    null — the model itself populating the key, and the lenient
    fallback, are the only full-success sources of a non-null
    `parsing_errors`. -/
theorem c5_amended_success_passthrough (apiKey text t : PStr) (M : Int)
    (env : Env) (fs : List (PStr × JValue)) (r : ParsedDARReport)
    (hreach : ReachesLoop apiKey text env) (hM : 0 ≤ M)
    (hgen : env.gen 1 = .response t) (ht : t ≠ [])
    (hcl : sanitize t ≠ [])
    (hjson : env.jsonLoads (sanitize t) = .ok (.obj fs))
    (hh : (lookupKey fs (chars "header")).isSome = true)
    (hp : (lookupKey fs (chars "audit_paras")).isSome = true)
    (hmk : mkReport (.obj fs) = .ok r) :
    (getStructuredDataRun apiKey text M env).report = r ∧
    (getStructuredDataRun apiKey text M env).tag = .success ∧
    (lookupKey fs (chars "parsing_errors") = none ∨
        lookupKey fs (chars "parsing_errors") = some .null →
      r.parsing_errors = none) := by
  have hfix : fixupKeys (.obj fs) 1 = .ok (.obj fs) := by
    simp [fixupKeys, pyInJ, hh, hp]
  have hstep : attemptStep env 1 = .success r := by
    simp only [attemptStep, hgen, if_neg ht, if_neg hcl, hjson, hfix,
      hmk]
  rw [reaches_loop_run M hreach]
  unfold runFrom
  obtain ⟨b, hb⟩ : ∃ b, (M + 1 - ((0 : Nat) : Int)).toNat = b + 1 :=
    ⟨(M + 1 - ((0 : Nat) : Int)).toNat - 1, by omega⟩
  rw [hb, runBudget, Nat.zero_add, hstep]
  refine ⟨rfl, rfl, ?_⟩
  intro hpe
  have hpeok : reportPe fs = .ok none := by
    unfold reportPe
    rcases hpe with h | h
    · rw [h]
    · rw [h]; rfl
  simp only [mkReport] at hmk
  split at hmk
  · cases hmk
  · split at hmk
    · cases hmk
    · rw [hpeok] at hmk
      cases hmk
      rfl

/-- C5 witness: a response with both keys and no `parsing_errors` key
    yields the default record with null `parsing_errors`. -/
theorem c5_witness :
    (getStructuredDataRun wKey wText 2 envPlain).report =
      ({} : ParsedDARReport) ∧
    (getStructuredDataRun wKey wText 2 envPlain).tag = .success ∧
    ({} : ParsedDARReport).parsing_errors = none := by
  have h := c5_amended_success_passthrough wKey wText respPlain 2
    envPlain fieldsPlain {} (by decide) (by decide) rfl (by decide)
    (by decide) rfl (by decide) (by decide) (by decide)
  exact ⟨h.1, h.2.1, h.2.2 (Or.inl rfl)⟩

/-- C7: when the sanitized response parses as a JSON object lacking
    the `header` key but carrying an `audit_paras` array, the returned
    record has an empty header, line items coerced from the provided
    array (the data is not discarded) and the non-null fallback note
    in `parsing_errors`; symmetrically, a missing `audit_paras` key is
    synthesized as an empty array. -/
theorem c7_lenient_fallback (apiKey text t : PStr) (M : Int) (env : Env)
    (fs : List (PStr × JValue))
    (hreach : ReachesLoop apiKey text env) (hM : 0 ≤ M)
    (hgen : env.gen 1 = .response t) (ht : t ≠ [])
    (hcl : sanitize t ≠ [])
    (hjson : env.jsonLoads (sanitize t) = .ok (.obj fs)) :
    (∀ xs ps, lookupKey fs (chars "header") = none →
      lookupKey fs (chars "audit_paras") = some (.arr xs) →
      xs.mapM mkPara = .ok ps →
      (getStructuredDataRun apiKey text M env).report.header = {} ∧
      (getStructuredDataRun apiKey text M env).report.audit_paras = ps ∧
      (getStructuredDataRun apiKey text M env).report.parsing_errors =
        some (missingKeysMsg 1)) ∧
    (∀ hv hd, lookupKey fs (chars "audit_paras") = none →
      lookupKey fs (chars "header") = some hv →
      mkHeader hv = .ok hd →
      (getStructuredDataRun apiKey text M env).report.header = hd ∧
      (getStructuredDataRun apiKey text M env).report.audit_paras = [] ∧
      (getStructuredDataRun apiKey text M env).report.parsing_errors =
        some (missingKeysMsg 1)) := by
  rw [reaches_loop_run M hreach]
  unfold runFrom
  obtain ⟨b, hb⟩ : ∃ b, (M + 1 - ((0 : Nat) : Int)).toNat = b + 1 :=
    ⟨(M + 1 - ((0 : Nat) : Int)).toNat - 1, by omega⟩
  rw [hb]
  constructor
  · intro xs ps hno hpar hmap
    have hIn : (lookupKey fs (chars "header")).isSome = false := by
      rw [hno]; rfl
    have pIn : (lookupKey fs (chars "audit_paras")).isSome = true := by
      rw [hpar]; rfl
    have hfix : fixupKeys (.obj fs) 1 =
        .ok (.obj (setKey (setKey fs (chars "header") (.obj []))
          (chars "parsing_errors") (.str (missingKeysMsg 1)))) := by
      simp [fixupKeys, pyInJ, pySetJ, hIn, pIn]
    have hhd : reportHeader (setKey (setKey fs (chars "header") (.obj []))
        (chars "parsing_errors") (.str (missingKeysMsg 1))) = .ok {} := by
      unfold reportHeader
      rw [lookup_setKey_other _ _ _ _ (by decide), lookup_setKey_self]
      rfl
    have hps : reportParas (setKey (setKey fs (chars "header") (.obj []))
        (chars "parsing_errors") (.str (missingKeysMsg 1))) = .ok ps := by
      unfold reportParas
      rw [lookup_setKey_other _ _ _ _ (by decide),
        lookup_setKey_other _ _ _ _ (by decide), hpar]
      exact hmap
    have hpe : reportPe (setKey (setKey fs (chars "header") (.obj []))
        (chars "parsing_errors") (.str (missingKeysMsg 1))) =
        .ok (some (missingKeysMsg 1)) := by
      unfold reportPe
      rw [lookup_setKey_self]
      rfl
    have hmk : mkReport (.obj (setKey (setKey fs (chars "header")
        (.obj [])) (chars "parsing_errors")
        (.str (missingKeysMsg 1)))) =
        .ok ⟨{}, ps, some (missingKeysMsg 1)⟩ := by
      simp only [mkReport, hhd, hps, hpe]
    have hstep : attemptStep env 1 =
        .success ⟨{}, ps, some (missingKeysMsg 1)⟩ := by
      simp only [attemptStep, hgen, if_neg ht, if_neg hcl, hjson, hfix,
        hmk]
    rw [runBudget, Nat.zero_add, hstep]
    exact ⟨rfl, rfl, rfl⟩
  · intro hv hd hno hhead hcoerce
    have hIn : (lookupKey fs (chars "header")).isSome = true := by
      rw [hhead]; rfl
    have pIn : (lookupKey fs (chars "audit_paras")).isSome = false := by
      rw [hno]; rfl
    have hfix : fixupKeys (.obj fs) 1 =
        .ok (.obj (setKey (setKey fs (chars "audit_paras") (.arr []))
          (chars "parsing_errors") (.str (missingKeysMsg 1)))) := by
      simp [fixupKeys, pyInJ, pySetJ, hIn, pIn]
    have hhd : reportHeader (setKey (setKey fs (chars "audit_paras")
        (.arr [])) (chars "parsing_errors") (.str (missingKeysMsg 1))) =
        .ok hd := by
      unfold reportHeader
      rw [lookup_setKey_other _ _ _ _ (by decide),
        lookup_setKey_other _ _ _ _ (by decide), hhead]
      exact hcoerce
    have hps : reportParas (setKey (setKey fs (chars "audit_paras")
        (.arr [])) (chars "parsing_errors") (.str (missingKeysMsg 1))) =
        .ok [] := by
      unfold reportParas
      rw [lookup_setKey_other _ _ _ _ (by decide), lookup_setKey_self]
      rfl
    have hpe : reportPe (setKey (setKey fs (chars "audit_paras")
        (.arr [])) (chars "parsing_errors") (.str (missingKeysMsg 1))) =
        .ok (some (missingKeysMsg 1)) := by
      unfold reportPe
      rw [lookup_setKey_self]
      rfl
    have hmk : mkReport (.obj (setKey (setKey fs (chars "audit_paras")
        (.arr [])) (chars "parsing_errors")
        (.str (missingKeysMsg 1)))) =
        .ok ⟨hd, [], some (missingKeysMsg 1)⟩ := by
      simp only [mkReport, hhd, hps, hpe]
    have hstep : attemptStep env 1 =
        .success ⟨hd, [], some (missingKeysMsg 1)⟩ := by
      simp only [attemptStep, hgen, if_neg ht, if_neg hcl, hjson, hfix,
        hmk]
    rw [runBudget, Nat.zero_add, hstep]
    exact ⟨rfl, rfl, rfl⟩

/-- C7 witness: concrete responses missing `header` respectively
    `audit_paras`. -/
theorem c7_witness :
    ((getStructuredDataRun wKey wText 2 envNoHeader).report.header
        = {} ∧
     (getStructuredDataRun wKey wText 2 envNoHeader).report.audit_paras
        = [] ∧
     (getStructuredDataRun wKey wText 2
        envNoHeader).report.parsing_errors = some (missingKeysMsg 1)) ∧
    (getStructuredDataRun wKey wText 2 envNoParas).report.audit_paras
        = [] := by
  have hA := (c7_lenient_fallback wKey wText respNoHeader 2 envNoHeader
    fieldsNoHeader (by decide) (by decide) rfl (by decide) (by decide)
    rfl).1 [] [] rfl rfl rfl
  have hB := (c7_lenient_fallback wKey wText respNoParas 2 envNoParas
    fieldsNoParas (by decide) (by decide) rfl (by decide) (by decide)
    rfl).2 (.obj []) {} rfl rfl (by decide)
  exact ⟨hA, hB.2.1⟩

end GeminiUtils
